import Mathlib

/-!
Shallow embedding of the VIP Reception System camera-stream pipeline.

The viewer side is translated from
`src/frontend/src/components/LiveCameraView.jsx` (frame queue discipline,
message handling, keep-alive, canvas sizing, detection-overlay geometry).
The database defaults come from `src/backend/database/init.sql` and the
schema from the SQL setup script.  The RecognitionDispatcher and
VisitLedger implementations are not among the repository sources (only
design diagrams, the SQL schema and configuration refer to them); those
two components are modelled from the specification text, as marked on
their definitions.
-/

namespace VIPReception

/-- A `frame` WebSocket message as consumed by `LiveCameraView.jsx`:
`{type:'frame', camera_id, frame_id, data (base64 image), width, height}`.
`Option`-valued fields model JSON fields that may be absent. -/
structure Frame where
  camera_id : Option Nat
  frame_id : Nat
  data : String
  width : Option Nat
  height : Option Nat
  deriving DecidableEq, Repr

/-- The `vip_info` object attached by the detection-enhancement step in
`LiveCameraView.jsx` (lines 130-134). -/
structure VipInfo where
  priority : String
  welcome_message : String
  special_requirements : String
  deriving DecidableEq, Repr

/-- One element of a `recognition_update` message's `detections` list, with
the fields `LiveCameraView.jsx` reads (`type`, `attendee_id`,
`attendee_name`, `confidence`, `location`, `data`, `is_vip`, `vip_info`). -/
structure Detection where
  type : String
  attendee_id : Option Nat
  attendee_name : Option String
  confidence : Option ℚ
  location : Option (ℚ × ℚ × ℚ × ℚ)
  data : Option String
  is_vip : Option Bool
  vip_info : Option VipInfo
  deriving DecidableEq, Repr

/-- The fields of a detection that the VIP-enhancement step leaves alone
(everything except `is_vip` and `vip_info`). -/
structure DetectionCore where
  type : String
  attendee_id : Option Nat
  attendee_name : Option String
  confidence : Option ℚ
  location : Option (ℚ × ℚ × ℚ × ℚ)
  data : Option String
  deriving DecidableEq, Repr

/-- Projection of a detection onto its enhancement-invariant fields. -/
def Detection.core (d : Detection) : DetectionCore :=
  ⟨d.type, d.attendee_id, d.attendee_name, d.confidence, d.location, d.data⟩

/-- JavaScript `x || d` on an optional number: absent and `0` are falsy. -/
def jsOrNat (v : Option Nat) (d : Nat) : Nat :=
  match v with
  | none => d
  | some 0 => d
  | some n => n

/-- JavaScript `x || d` on an optional string: absent and `""` are falsy. -/
def jsOrStr (v : Option String) (d : String) : String :=
  match v with
  | none => d
  | some "" => d
  | some s => s

/-- The VIP-enhancement map applied to each detection of a
`recognition_update` (`LiveCameraView.jsx` lines 122-138): a `face`
detection with a truthy `attendee_id` gets `is_vip` (from the backend when
present, else `attendee_id % 3 === 0`) and, when VIP, a `vip_info` block;
every other detection is returned unchanged. -/
def enhanceDetection (d : Detection) : Detection :=
  match d.attendee_id with
  | some id =>
    if d.type = "face" ∧ id ≠ 0 then
      let isVip : Bool :=
        match d.is_vip with
        | some b => b
        | none => decide (id % 3 = 0)
      { d with is_vip := some isVip,
               vip_info :=
                 if isVip then
                   some ⟨"High",
                         "Welcome " ++ jsOrStr (d.attendee_name) "VIP Guest" ++ "!",
                         "Private lounge access"⟩
                 else none }
    else d
  | none => d

/-- Server-to-client messages of the per-camera streaming WebSocket, as
dispatched on by `ws.onmessage` in `LiveCameraView.jsx`. -/
inductive ServerMsg where
  | connected (message : String)
  | stream_info (width height fps : Nat) (format : String)
  | frame (f : Frame)
  | error (message : String)
  | pong
  | recognition_update (camera_id : Option Nat) (detections : Option (List Detection))
  | unknown (tag : String)
  deriving DecidableEq, Repr

/-- The viewer state mutated by `LiveCameraView.jsx`: the bounded frame
queue (`frameQueueRef`), the processing flag (`isProcessingRef`), the
displayed detections, the connection flag, the error banner, the video
canvas dimensions and the frame most recently submitted for display. -/
structure ViewerState where
  frameQueue : List Frame
  isProcessing : Bool
  detections : List Detection
  connected : Bool
  error : Option String
  canvasWidth : ℤ
  canvasHeight : ℤ
  displayed : Option Frame
  deriving DecidableEq, Repr

/-- Viewer state right after mount: empty queue, not processing, no
detections, 640×480 canvas (initial-canvas effect, lines 332-334). -/
def initViewer : ViewerState :=
  { frameQueue := []
    isProcessing := false
    detections := []
    connected := false
    error := none
    canvasWidth := 640
    canvasHeight := 480
    displayed := none }

/-- The queue discipline of the `frame` branch (`LiveCameraView.jsx` lines
92-98): below depth 5 the frame is pushed; at depth 5 the oldest frame is
shifted off the head and the new frame pushed at the tail. -/
def enqueueFrame (q : List Frame) (f : Frame) : List Frame :=
  if q.length < 5 then q ++ [f] else q.tail ++ [f]

/-- Frame dimensions with the JavaScript defaults `width || 320` and
`height || 240` (`LiveCameraView.jsx` lines 226-227 and 474-475). -/
def frameDims (f : Frame) : Nat × Nat :=
  (jsOrNat (f.width) 320, jsOrNat (f.height) 240)

/-- Canvas display height for a frame: fixed display width 640 and
`Math.round(displayWidth * (frameHeight / frameWidth))`
(`LiveCameraView.jsx` lines 232-233). -/
def displayHeightFor (f : Frame) : ℤ :=
  round ((640 : ℚ) * (((frameDims f).2 : ℚ) / ((frameDims f).1 : ℚ)))

/-- Canvas resize step (`LiveCameraView.jsx` lines 236-239): adopt the
target 640 × `displayHeightFor` dimensions only when either differs from
the current canvas dimension by more than 10. -/
def resizeCanvas (cw ch : ℤ) (f : Frame) : ℤ × ℤ :=
  let dw : ℤ := 640
  let dh : ℤ := displayHeightFor f
  if 10 < |cw - dw| ∨ 10 < |ch - dh| then (dw, dh) else (cw, ch)

/-- `processFrameQueue` (`LiveCameraView.jsx` lines 208-244): return at
once if already processing or the queue is empty; otherwise set the
processing flag, drain the whole queue keeping only the most recently
enqueued frame, resize the canvas for it and submit it for display. -/
def processFrameQueue (s : ViewerState) : ViewerState :=
  if s.isProcessing = true ∨ s.frameQueue = [] then s
  else
    match s.frameQueue.getLast? with
    | none => s
    | some latest =>
      let c := resizeCanvas s.canvasWidth s.canvasHeight latest
      { s with frameQueue := []
               isProcessing := true
               canvasWidth := c.1
               canvasHeight := c.2
               displayed := some latest }

/-- `ws.onmessage` of the stream WebSocket (`LiveCameraView.jsx` lines
73-155), for a viewer watching camera `viewedId`.  The second component is
the argument passed to the `onDetectionUpdate` callback, `none` when the
callback is not invoked. -/
def handleMessage (viewedId : Nat) (s : ViewerState) (m : ServerMsg) :
    ViewerState × Option (List Detection) :=
  match m with
  | ServerMsg.connected _ => (s, none)
  | ServerMsg.stream_info _ _ _ _ => (s, none)
  | ServerMsg.frame f =>
      if f.camera_id = some viewedId then
        (processFrameQueue { s with frameQueue := enqueueFrame s.frameQueue f }, none)
      else (s, none)
  | ServerMsg.error msg => ({ s with error := some msg }, none)
  | ServerMsg.pong => (s, none)
  | ServerMsg.recognition_update cid dets =>
      if cid = some viewedId then
        let ds := (dets.getD []).map enhanceDetection
        ({ s with detections := ds }, some ds)
      else (s, none)
  | ServerMsg.unknown _ => (s, none)

/-- Inputs driving the viewer: an incoming WebSocket message, or the
completion of an in-flight frame image load (`img.onload`, lines 246-282,
which clears the processing flag and re-runs `processFrameQueue` when the
queue is non-empty). -/
inductive ViewerEvent where
  | msg (m : ServerMsg)
  | frameLoaded
  deriving DecidableEq, Repr

/-- One step of the viewer on an event. -/
def step (viewedId : Nat) (s : ViewerState) (e : ViewerEvent) : ViewerState :=
  match e with
  | ViewerEvent.msg m => (handleMessage viewedId s m).1
  | ViewerEvent.frameLoaded =>
      if s.isProcessing = true then processFrameQueue { s with isProcessing := false }
      else s

/-- Run the viewer over a sequence of events. -/
def run (viewedId : Nat) (s : ViewerState) (es : List ViewerEvent) : ViewerState :=
  es.foldl (step viewedId) s

/-- Events that concern the viewed camera: everything except a `frame`
message carrying a missing or different `camera_id`. -/
def relevantEvent (viewedId : Nat) (e : ViewerEvent) : Bool :=
  match e with
  | ViewerEvent.msg (ServerMsg.frame f) => decide (f.camera_id = some viewedId)
  | _ => true

/-- `WebSocket.OPEN` readyState constant. -/
def wsOPEN : Nat := 1

/-- The keep-alive interval of `setInterval` (`LiveCameraView.jsx` line
183): 30000 milliseconds. -/
def pingIntervalMs : Nat := 30000

/-- `JSON.stringify({type:'ping'})` — the exact keep-alive wire message. -/
def pingJson : String := "\x7b\"type\":\"ping\"\x7d"

/-- One tick of the keep-alive timer (`LiveCameraView.jsx` lines 179-183):
send the ping JSON only when the socket is in the OPEN state. -/
def pingTick (readyState : Nat) : Option String :=
  if readyState = wsOPEN then some pingJson else none

/-- Frame dimensions used by the detection overlay (`drawDetections`,
`LiveCameraView.jsx` lines 470-476): the last queued frame's dimensions
with 320×240 defaults, or 320×240 outright when the queue is empty. -/
def overlayFrameDims (q : List Frame) : Nat × Nat :=
  match q.getLast? with
  | none => (320, 240)
  | some f => frameDims f

/-- The scaled, centered rectangle `drawDetections` draws for a face
bounding region `[top, right, bottom, left]` (`LiveCameraView.jsx` lines
483-495). -/
structure ScaledRect where
  x : ℚ
  y : ℚ
  w : ℚ
  h : ℚ
  deriving DecidableEq, Repr

/-- Detection-overlay geometry (`LiveCameraView.jsx` lines 483-495):
uniform scale `min(displayW/frameW, displayH/frameH)`, centering offsets
`(displayW - frameW*scale)/2` and `(displayH - frameH*scale)/2`, then the
box corners scaled and offset. -/
def detectionRect (displayW displayH frameW frameH top right bottom left : ℚ) :
    ScaledRect :=
  let scale := min (displayW / frameW) (displayH / frameH)
  let xOffset := (displayW - frameW * scale) / 2
  let yOffset := (displayH - frameH * scale) / 2
  ⟨xOffset + left * scale, yOffset + top * scale,
   (right - left) * scale, (bottom - top) * scale⟩

/-- Recognition method of a detection or a visit record. -/
inductive Method where
  | face
  | code
  deriving DecidableEq, Repr

/-- Modelled from the spec: the RecognitionDispatcher implementation (the
backend recognition engine and stream processor) is not among the
repository sources; only the design sequence diagrams and the database
configuration refer to it.  A face-match candidate carries a subject
identifier and a confidence in [0, 1] (spec §3, §6). -/
structure FaceResult where
  subject : Nat
  confidence : ℚ
  deriving DecidableEq, Repr

/-- Modelled from the spec: dispatcher configuration — the configurable
face-confidence threshold (spec §4.4). -/
structure DispatchConfig where
  threshold : ℚ
  deriving DecidableEq, Repr

/-- The default configuration: `recognition_threshold` is `'0.6'` in
`src/backend/database/init.sql`. -/
def defaultConfig : DispatchConfig := ⟨6 / 10⟩

/-- The emitted DetectionEvent (spec §3): method, optional subject,
optional confidence (face only), optional decoded payload (code only). -/
structure DetectionEvent where
  method : Method
  subject : Option Nat
  confidence : Option ℚ
  payload : Option String
  deriving DecidableEq, Repr

/-- Modelled from the spec: a face match is accepted exactly when its
confidence compares `>=` against the threshold (spec §4.4, numeric
semantics). -/
def faceAccepted (cfg : DispatchConfig) (r : FaceResult) : Bool :=
  decide (cfg.threshold ≤ r.confidence)

/-- Event built from a code-decode outcome: a valid decoded payload yields
a code-method event, otherwise nothing. -/
def codeEvent (codeRes : Option String) : Option DetectionEvent :=
  match codeRes with
  | some p => some ⟨Method.code, none, none, some p⟩
  | none => none

/-- Modelled from the spec: the dispatch priority rule (spec §4.4 and the
"Both methods succeed" branch of the dual-recognition sequence diagram):
an accepted face match wins and the code result is discarded; otherwise a
valid decoded payload wins; otherwise no event. -/
def dispatch (cfg : DispatchConfig) (faceRes : Option FaceResult)
    (codeRes : Option String) : Option DetectionEvent :=
  match faceRes with
  | some r =>
      if faceAccepted cfg r then
        some ⟨Method.face, some r.subject, some r.confidence, none⟩
      else codeEvent codeRes
  | none => codeEvent codeRes

/-- Modelled from the spec: preference between two face candidates —
higher confidence wins, an equal-confidence tie is broken by the lowest
subject identifier (spec §4.4, numeric semantics). -/
def betterCandidate (a b : FaceResult) : FaceResult :=
  if a.confidence < b.confidence then b
  else if b.confidence = a.confidence ∧ b.subject < a.subject then b
  else a

/-- Modelled from the spec: deterministic selection of the best face
candidate from a list of candidates. -/
def bestCandidate : List FaceResult → Option FaceResult
  | [] => none
  | c :: cs => some (cs.foldl betterCandidate c)

/-- Result of `recordIfNew` (spec §4.5). -/
inductive RecordResult where
  | recorded
  | alreadyRecorded
  deriving DecidableEq, Repr

/-- A row of the `visits` table (SQL schema): `attendee_id`, `camera_id`,
`recognition_method`. -/
structure VisitRecord where
  subject : Nat
  camera : Nat
  method : Method
  deriving DecidableEq, Repr

/-- Modelled from the spec: the VisitLedger implementation is not among
the repository sources (only the `visits` table schema is).  Per camera it
keeps whether a session is open and the set of subject identifiers already
checked in during that session's lifetime, plus the persisted visit
records (spec §4.5). -/
structure LedgerState where
  sessionOpen : Nat → Bool
  sessionSet : Nat → List Nat
  visits : List VisitRecord

/-- Modelled from the spec: `recordIfNew(subjectId, cameraId, method)` —
on a repeat within the same session, return `AlreadyRecorded` and perform
no write; on a new subject, add it to the session set and persist a
VisitRecord (spec §4.5). -/
def recordIfNew (subj cam : Nat) (m : Method) (st : LedgerState) :
    RecordResult × LedgerState :=
  if subj ∈ st.sessionSet cam then (RecordResult.alreadyRecorded, st)
  else
    (RecordResult.recorded,
      { st with
          sessionSet := fun c => if c = cam then subj :: st.sessionSet cam
                                 else st.sessionSet c
          visits := st.visits ++ [⟨subj, cam, m⟩] })

/-- Modelled from the spec: the session transition to CLOSED clears the
camera's in-session subject set (spec §4.5). -/
def closeSession (cam : Nat) (st : LedgerState) : LedgerState :=
  { st with
      sessionOpen := fun c => if c = cam then false else st.sessionOpen c
      sessionSet := fun c => if c = cam then [] else st.sessionSet c }

/-- Modelled from the spec: opening a new session for a camera starts with
an empty in-session subject set (spec §4.5). -/
def openSession (cam : Nat) (st : LedgerState) : LedgerState :=
  { st with
      sessionOpen := fun c => if c = cam then true else st.sessionOpen c
      sessionSet := fun c => if c = cam then [] else st.sessionSet c }

/-- Number of persisted VisitRecords for a (subject, camera) pair. -/
def countVisits (vs : List VisitRecord) (subj cam : Nat) : Nat :=
  (vs.filter (fun v => v.subject == subj && v.camera == cam)).length

/-- A ledger with every session open and nothing recorded. -/
def ledgerInit : LedgerState :=
  { sessionOpen := fun _ => true
    sessionSet := fun _ => []
    visits := [] }

/-- A concrete frame for camera 1 with no width/height fields. -/
def mkFrame (i : Nat) : Frame :=
  { camera_id := some 1, frame_id := i, data := "x", width := none, height := none }

/-- The enqueue discipline never grows the queue beyond depth 5. -/
theorem enqueueFrame_length_le (q : List Frame) (f : Frame)
    (h : q.length ≤ 5) : (enqueueFrame q f).length ≤ 5 := by
  by_cases hlt : q.length < 5
  · simp only [enqueueFrame, hlt, if_true, List.length_append, List.length_cons,
      List.length_nil]
    omega
  · simp only [enqueueFrame, hlt, if_false, List.length_append, List.length_tail,
      List.length_cons, List.length_nil]
    omega

/-- `processFrameQueue` either leaves the queue alone or empties it. -/
theorem processFrameQueue_queue (s : ViewerState) :
    (processFrameQueue s).frameQueue = s.frameQueue ∨
    (processFrameQueue s).frameQueue = [] := by
  by_cases hg : s.isProcessing = true ∨ s.frameQueue = []
  · left
    simp [processFrameQueue, hg]
  · rcases hq : s.frameQueue.getLast? with _ | latest
    · left
      simp [processFrameQueue, hg, hq]
    · right
      simp [processFrameQueue, hg, hq]

/-- Every viewer step preserves the depth-5 bound on the frame queue. -/
theorem step_queue_length_le (viewedId : Nat) (s : ViewerState) (e : ViewerEvent)
    (h : s.frameQueue.length ≤ 5) : (step viewedId s e).frameQueue.length ≤ 5 := by
  cases e with
  | msg m =>
    cases m with
    | frame f =>
      by_cases hc : f.camera_id = some viewedId
      · simp only [step, handleMessage, hc, if_true]
        have he : (enqueueFrame s.frameQueue f).length ≤ 5 :=
          enqueueFrame_length_le s.frameQueue f h
        rcases processFrameQueue_queue
            { s with frameQueue := enqueueFrame s.frameQueue f } with hpq | hpq
        · rw [hpq]
          exact he
        · rw [hpq]
          simp
      · simpa [step, handleMessage, hc] using h
    | connected a => simpa [step, handleMessage] using h
    | stream_info a b c d => simpa [step, handleMessage] using h
    | error a => simpa [step, handleMessage] using h
    | pong => simpa [step, handleMessage] using h
    | recognition_update a b =>
      simp only [step, handleMessage]
      split
      · simpa using h
      · simpa using h
    | unknown a => simpa [step, handleMessage] using h
  | frameLoaded =>
    simp only [step]
    split
    · rcases processFrameQueue_queue { s with isProcessing := false } with hpq | hpq
      · rw [hpq]
        simpa using h
      · rw [hpq]
        simp
    · exact h

/-- Running the viewer from a state within the depth-5 bound stays within
the bound. -/
theorem run_queue_length_le (viewedId : Nat) (es : List ViewerEvent)
    (s : ViewerState) (h : s.frameQueue.length ≤ 5) :
    (run viewedId s es).frameQueue.length ≤ 5 := by
  induction es generalizing s with
  | nil => exact h
  | cons e tl ih =>
    rw [run, List.foldl_cons]
    exact ih (step viewedId s e) (step_queue_length_le viewedId s e h)

/-- Claim C1: the frame branch of `ws.onmessage` keeps the outbound frame
queue at depth at most 5 — at depth 5 the oldest (head) frame is removed
and the new frame appended at the tail, so the depth stays 5 and the
newest frame is present; below depth 5 the frame is appended and the depth
grows by exactly 1; and for a frame message carrying the viewed camera's
id the handler applies exactly this discipline to the queue. -/
theorem frame_queue_depth_five (q : List Frame) (f : Frame) :
    (q.length = 5 →
      enqueueFrame q f = q.tail ++ [f] ∧ (enqueueFrame q f).length = 5 ∧
      (enqueueFrame q f).getLast? = some f) ∧
    (q.length < 5 →
      enqueueFrame q f = q ++ [f] ∧ (enqueueFrame q f).length = q.length + 1) ∧
    (q.length ≤ 5 → (enqueueFrame q f).length ≤ 5) ∧
    (∀ (viewedId : Nat) (s : ViewerState), s.isProcessing = true →
      f.camera_id = some viewedId →
      (handleMessage viewedId s (ServerMsg.frame f)).1.frameQueue
        = enqueueFrame s.frameQueue f) ∧
    (∀ (viewedId : Nat) (es : List ViewerEvent),
      (run viewedId initViewer es).frameQueue.length ≤ 5) := by
  refine ⟨?_, ?_, ?_, ?_, ?_⟩
  · intro h5
    have hnot : ¬ q.length < 5 := by omega
    have he : enqueueFrame q f = q.tail ++ [f] := by
      simp [enqueueFrame, hnot]
    refine ⟨he, ?_, ?_⟩
    · rw [he]
      simp only [List.length_append, List.length_tail, List.length_cons,
        List.length_nil]
      omega
    · rw [he]
      simp
  · intro h5
    exact ⟨by simp [enqueueFrame, h5], by simp [enqueueFrame, h5]⟩
  · intro h5
    by_cases h : q.length < 5
    · simp only [enqueueFrame, h, if_true, List.length_append, List.length_cons,
        List.length_nil]
      omega
    · simp only [enqueueFrame, h, if_false, List.length_append, List.length_tail,
        List.length_cons, List.length_nil]
      omega
  · intro viewedId s hp hc
    simp [handleMessage, hc, processFrameQueue, hp]
  · intro viewedId es
    exact run_queue_length_le viewedId es initViewer (by simp [initViewer])

/-- Witness for C1 at a concrete full queue. -/
theorem frame_queue_depth_five_w :
    ([mkFrame 0, mkFrame 1, mkFrame 2, mkFrame 3, mkFrame 4] : List Frame).length = 5 ∧
    enqueueFrame [mkFrame 0, mkFrame 1, mkFrame 2, mkFrame 3, mkFrame 4] (mkFrame 5)
      = [mkFrame 1, mkFrame 2, mkFrame 3, mkFrame 4, mkFrame 5] := by
  have h := (frame_queue_depth_five
    [mkFrame 0, mkFrame 1, mkFrame 2, mkFrame 3, mkFrame 4] (mkFrame 5)).1 (by decide)
  exact ⟨by decide, h.1.trans (by decide)⟩

/-- Claim C6: with the processing flag clear and a non-empty queue, one
invocation of `processFrameQueue` drains the queue completely and submits
exactly the most recently enqueued frame for display. -/
theorem latest_frame_displayed (s : ViewerState)
    (h1 : s.isProcessing = false) (h2 : s.frameQueue ≠ []) :
    (processFrameQueue s).frameQueue = [] ∧
    (processFrameQueue s).displayed = s.frameQueue.getLast? ∧
    (processFrameQueue s).isProcessing = true := by
  have hg : ¬ (s.isProcessing = true ∨ s.frameQueue = []) := by
    simp [h1, h2]
  rcases hq : s.frameQueue.getLast? with _ | latest
  · exact absurd (List.getLast?_eq_none_iff.mp hq) h2
  · simp [processFrameQueue, hg, hq]

/-- Witness for C6 at a concrete two-frame queue. -/
theorem latest_frame_displayed_w :
    ({ initViewer with frameQueue := [mkFrame 0, mkFrame 1] } : ViewerState).isProcessing
        = false ∧
    ({ initViewer with frameQueue := [mkFrame 0, mkFrame 1] } : ViewerState).frameQueue
        ≠ [] ∧
    (processFrameQueue { initViewer with frameQueue := [mkFrame 0, mkFrame 1] }).frameQueue
        = [] ∧
    (processFrameQueue { initViewer with frameQueue := [mkFrame 0, mkFrame 1] }).displayed
        = some (mkFrame 1) := by
  have h := latest_frame_displayed
    { initViewer with frameQueue := [mkFrame 0, mkFrame 1] } (by decide) (by decide)
  exact ⟨by decide, by decide, h.1, h.2.1.trans (by decide)⟩

/-- Claim C7: while the socket is OPEN every 30-second timer tick sends
exactly the JSON string for the ping message and a tick sends nothing when
the socket is not OPEN; a received pong message leaves the whole viewer
state unchanged and invokes no callback. -/
theorem keepalive_ping_pong :
    pingIntervalMs = 30 * 1000 ∧
    (∀ rs : Nat, rs = wsOPEN → pingTick rs = some pingJson) ∧
    (∀ rs : Nat, rs ≠ wsOPEN → pingTick rs = none) ∧
    (∀ (viewedId : Nat) (s : ViewerState),
      handleMessage viewedId s ServerMsg.pong = (s, none)) := by
  refine ⟨rfl, ?_, ?_, ?_⟩
  · intro rs h
    simp [pingTick, h]
  · intro rs h
    simp [pingTick, h]
  · intro viewedId s
    rfl

/-- Witness for C7 at concrete ready states and a concrete viewer state. -/
theorem keepalive_ping_pong_w :
    pingTick wsOPEN = some pingJson ∧ pingTick 0 = none ∧
    handleMessage 1 initViewer ServerMsg.pong = (initViewer, none) :=
  ⟨keepalive_ping_pong.2.1 wsOPEN rfl,
   keepalive_ping_pong.2.2.1 0 (by decide),
   keepalive_ping_pong.2.2.2 1 initViewer⟩

/-- Claim C2: when the face attempt completes with a match at or above the
threshold and the code attempt also yields a valid decoded payload, the
dispatcher emits a face-method DetectionEvent and the code payload is
discarded. -/
theorem face_priority_on_dual_success (cfg : DispatchConfig) (r : FaceResult)
    (p : String) (h : cfg.threshold ≤ r.confidence) :
    dispatch cfg (some r) (some p)
      = some ⟨Method.face, some r.subject, some r.confidence, none⟩ ∧
    (dispatch cfg (some r) (some p)).map DetectionEvent.method = some Method.face ∧
    (dispatch cfg (some r) (some p)).map DetectionEvent.payload = some none := by
  have hb : faceAccepted cfg r = true := by
    simp [faceAccepted, h]
  refine ⟨?_, ?_, ?_⟩ <;> simp [dispatch, hb]

/-- Witness for C2: subject 42 at confidence 0.85 with a decoded payload. -/
theorem face_priority_on_dual_success_w :
    defaultConfig.threshold ≤ (85 / 100 : ℚ) ∧
    dispatch defaultConfig (some ⟨42, 85 / 100⟩) (some ("QR123"))
      = some ⟨Method.face, some 42, some (85 / 100), none⟩ := by
  have hle : defaultConfig.threshold ≤ (85 / 100 : ℚ) := by
    norm_num [defaultConfig]
  exact ⟨hle, (face_priority_on_dual_success defaultConfig ⟨42, 85 / 100⟩ ("QR123") hle).1⟩

/-- Claim C4: a face match is accepted exactly when its confidence is `>=`
the configured threshold; the default threshold is 0.6 so confidence
exactly 0.6 is accepted under the default configuration; an
equal-confidence tie between two candidates resolves to the lowest
subject identifier. -/
theorem threshold_and_tie_break :
    defaultConfig.threshold = 6 / 10 ∧
    (∀ (cfg : DispatchConfig) (r : FaceResult),
      faceAccepted cfg r = true ↔ cfg.threshold ≤ r.confidence) ∧
    (∀ (cfg : DispatchConfig) (r : FaceResult),
      (dispatch cfg (some r) none).map DetectionEvent.method = some Method.face
        ↔ cfg.threshold ≤ r.confidence) ∧
    (∀ r : FaceResult, r.confidence = 6 / 10 → faceAccepted defaultConfig r = true) ∧
    (∀ a b : FaceResult, a.confidence = b.confidence →
      (bestCandidate [a, b]).map FaceResult.subject = some (min a.subject b.subject)) := by
  refine ⟨rfl, ?_, ?_, ?_, ?_⟩
  · intro cfg r
    simp [faceAccepted]
  · intro cfg r
    by_cases h : cfg.threshold ≤ r.confidence
    · have hb : faceAccepted cfg r = true := by simp [faceAccepted, h]
      simp [dispatch, hb, h]
    · have hb : faceAccepted cfg r = false := by simp [faceAccepted, h]
      simp [dispatch, hb, codeEvent, h]
  · intro r h
    simp [faceAccepted, defaultConfig, h]
  · intro a b h
    have hnlt : ¬ a.confidence < b.confidence := by
      rw [h]
      exact lt_irrefl _
    by_cases hs : b.subject < a.subject
    · have hbc : betterCandidate a b = b := by
        simp [betterCandidate, hnlt, h.symm, hs]
      simp only [bestCandidate, List.foldl_cons, List.foldl_nil, hbc,
        Option.map_some']
      congr 1
      omega
    · have hbc : betterCandidate a b = a := by
        simp [betterCandidate, hnlt, hs]
      simp only [bestCandidate, List.foldl_cons, List.foldl_nil, hbc,
        Option.map_some']
      congr 1
      omega

/-- Witness for C4: confidence exactly 0.6 is accepted, and an equal-0.5
tie between subjects 5 and 3 resolves to subject 3. -/
theorem threshold_and_tie_break_w :
    ((⟨7, 6 / 10⟩ : FaceResult)).confidence = 6 / 10 ∧
    faceAccepted defaultConfig ⟨7, 6 / 10⟩ = true ∧
    ((⟨5, 1 / 2⟩ : FaceResult)).confidence = ((⟨3, 1 / 2⟩ : FaceResult)).confidence ∧
    (bestCandidate [⟨5, 1 / 2⟩, ⟨3, 1 / 2⟩]).map FaceResult.subject = some 3 := by
  have h1 : ((⟨7, 6 / 10⟩ : FaceResult)).confidence = 6 / 10 := rfl
  have h2 : ((⟨5, 1 / 2⟩ : FaceResult)).confidence
      = ((⟨3, 1 / 2⟩ : FaceResult)).confidence := rfl
  refine ⟨h1, threshold_and_tie_break.2.2.2.1 _ h1, h2, ?_⟩
  exact (threshold_and_tie_break.2.2.2.2 ⟨5, 1 / 2⟩ ⟨3, 1 / 2⟩ h2).trans (by decide)

/-- The VIP-enhancement step only touches `is_vip` and `vip_info`: the
core fields of a detection are preserved. -/
theorem core_enhanceDetection (d : Detection) :
    (enhanceDetection d).core = d.core := by
  rcases hd : d.attendee_id with _ | id
  · simp [enhanceDetection, hd]
  · simp only [enhanceDetection, hd]
    split
    · simp [Detection.core, hd]
    · simp [Detection.core, hd]

/-- Claim C5: a `recognition_update` whose `camera_id` equals the viewed
camera's id immediately replaces the displayed detections with that
message's detections list (empty when absent) run through the VIP
enhancement — which preserves every detection's core fields — and
invokes the detection callback with the same list; the message touches no
other state, in particular it is never placed in the bounded frame
queue. -/
theorem recognition_updates_never_dropped (viewedId : Nat) (s : ViewerState)
    (cid : Option Nat) (dets : Option (List Detection)) (h : cid = some viewedId) :
    handleMessage viewedId s (ServerMsg.recognition_update cid dets)
      = ({ s with detections := (dets.getD []).map enhanceDetection },
         some ((dets.getD []).map enhanceDetection)) ∧
    ((dets.getD []).map enhanceDetection).map Detection.core
      = (dets.getD []).map Detection.core := by
  subst h
  constructor
  · simp [handleMessage]
  · simp [List.map_map, Function.comp, core_enhanceDetection]

/-- A concrete face detection for camera 1. -/
def sampleDetection : Detection :=
  { type := "face", attendee_id := some 3, attendee_name := none,
    confidence := some (85 / 100), location := some (10, 50, 60, 20),
    data := none, is_vip := none, vip_info := none }

/-- Witness for C5 at a concrete state and message. -/
theorem recognition_updates_never_dropped_w :
    ((some 1 : Option Nat) = some 1) ∧
    handleMessage 1 initViewer
        (ServerMsg.recognition_update (some 1) (some [sampleDetection]))
      = ({ initViewer with
             detections := ((some [sampleDetection]).getD []).map enhanceDetection },
         some (((some [sampleDetection]).getD []).map enhanceDetection)) ∧
    (((some [sampleDetection]).getD []).map enhanceDetection).map Detection.core
      = ((some [sampleDetection]).getD []).map Detection.core := by
  have h := recognition_updates_never_dropped 1 initViewer (some 1)
    (some [sampleDetection]) rfl
  exact ⟨rfl, h.1, h.2⟩

/-- Claim C3: within one open camera session `recordIfNew` is idempotent —
the first call records and writes exactly one VisitRecord for the
(subject, camera) pair, the second call returns `AlreadyRecorded` and
performs no write (the state is unchanged and the pair still has exactly
one VisitRecord); after the session is closed and a new one opened, the
same subject is recorded again, producing a second VisitRecord. -/
theorem recordIfNew_session_idempotent (subj cam : Nat) (m : Method)
    (st : LedgerState)
    (_hopen : st.sessionOpen cam = true)
    (hfresh : subj ∉ st.sessionSet cam)
    (hcount : countVisits st.visits subj cam = 0) :
    (recordIfNew subj cam m st).1 = RecordResult.recorded ∧
    (recordIfNew subj cam m (recordIfNew subj cam m st).2).1
      = RecordResult.alreadyRecorded ∧
    (recordIfNew subj cam m (recordIfNew subj cam m st).2).2
      = (recordIfNew subj cam m st).2 ∧
    countVisits ((recordIfNew subj cam m st).2).visits subj cam = 1 ∧
    countVisits
        ((recordIfNew subj cam m (recordIfNew subj cam m st).2).2).visits subj cam
      = 1 ∧
    (recordIfNew subj cam m
        (openSession cam (closeSession cam
          (recordIfNew subj cam m (recordIfNew subj cam m st).2).2))).1
      = RecordResult.recorded ∧
    countVisits
        ((recordIfNew subj cam m
          (openSession cam (closeSession cam
            (recordIfNew subj cam m (recordIfNew subj cam m st).2).2))).2).visits
        subj cam
      = 2 := by
  have happ : ∀ vs : List VisitRecord,
      countVisits (vs ++ [⟨subj, cam, m⟩]) subj cam
        = countVisits vs subj cam + 1 := by
    intro vs
    simp [countVisits, List.filter_append]
  have h1 : recordIfNew subj cam m st
      = (RecordResult.recorded,
         { st with
             sessionSet := fun c => if c = cam then subj :: st.sessionSet cam
                                    else st.sessionSet c
             visits := st.visits ++ [⟨subj, cam, m⟩] }) := by
    rw [recordIfNew, if_neg hfresh]
  have hmem : subj ∈ ((recordIfNew subj cam m st).2).sessionSet cam := by
    rw [h1]
    simp
  have h2 : recordIfNew subj cam m (recordIfNew subj cam m st).2
      = (RecordResult.alreadyRecorded, (recordIfNew subj cam m st).2) := by
    rw [recordIfNew, if_pos hmem]
  have hc1 : countVisits ((recordIfNew subj cam m st).2).visits subj cam = 1 := by
    rw [h1, happ, hcount]
  have hv2 : ((recordIfNew subj cam m (recordIfNew subj cam m st).2).2).visits
      = ((recordIfNew subj cam m st).2).visits := by
    rw [h2]
  have hset3 : (openSession cam (closeSession cam
      (recordIfNew subj cam m (recordIfNew subj cam m st).2).2)).sessionSet cam
      = [] := by
    simp [openSession, closeSession]
  have hvis3 : (openSession cam (closeSession cam
      (recordIfNew subj cam m (recordIfNew subj cam m st).2).2)).visits
      = ((recordIfNew subj cam m st).2).visits := by
    simp [openSession, closeSession, hv2]
  have hfresh3 : subj ∉ (openSession cam (closeSession cam
      (recordIfNew subj cam m (recordIfNew subj cam m st).2).2)).sessionSet cam := by
    rw [hset3]
    exact List.not_mem_nil subj
  have h4 : (recordIfNew subj cam m
      (openSession cam (closeSession cam
        (recordIfNew subj cam m (recordIfNew subj cam m st).2).2))).1
      = RecordResult.recorded := by
    rw [recordIfNew, if_neg hfresh3]
  have hv4 : ((recordIfNew subj cam m
      (openSession cam (closeSession cam
        (recordIfNew subj cam m (recordIfNew subj cam m st).2).2))).2).visits
      = (openSession cam (closeSession cam
        (recordIfNew subj cam m (recordIfNew subj cam m st).2).2)).visits
        ++ [⟨subj, cam, m⟩] := by
    rw [recordIfNew, if_neg hfresh3]
  refine ⟨by rw [h1], by rw [h2], by rw [h2], hc1, by rw [hv2, hc1], h4, ?_⟩
  rw [hv4, hvis3, happ, hc1]

/-- Witness for C3 at subject 0 and camera 1 starting from the fresh
ledger. -/
theorem recordIfNew_session_idempotent_w :
    ledgerInit.sessionOpen 1 = true ∧
    (0 : Nat) ∉ ledgerInit.sessionSet 1 ∧
    countVisits ledgerInit.visits 0 1 = 0 ∧
    (recordIfNew 0 1 Method.face ledgerInit).1 = RecordResult.recorded ∧
    (recordIfNew 0 1 Method.face (recordIfNew 0 1 Method.face ledgerInit).2).1
      = RecordResult.alreadyRecorded ∧
    countVisits
        ((recordIfNew 0 1 Method.face
          (recordIfNew 0 1 Method.face ledgerInit).2).2).visits 0 1 = 1 ∧
    countVisits
        ((recordIfNew 0 1 Method.face
          (openSession 1 (closeSession 1
            (recordIfNew 0 1 Method.face
              (recordIfNew 0 1 Method.face ledgerInit).2).2))).2).visits 0 1 = 2 := by
  have h := recordIfNew_session_idempotent 0 1 Method.face ledgerInit rfl
    (by simp [ledgerInit]) rfl
  exact ⟨rfl, by simp [ledgerInit], rfl, h.1, h.2.1, h.2.2.2.2.1, h.2.2.2.2.2.2⟩

/-- A step on an event that does not concern the viewed camera (a frame
for another camera, or with no `camera_id`) leaves the state unchanged. -/
theorem step_irrelevant (viewedId : Nat) (s : ViewerState) (e : ViewerEvent)
    (h : relevantEvent viewedId e = false) : step viewedId s e = s := by
  cases e with
  | msg m =>
    cases m with
    | frame f =>
      have hne : ¬ f.camera_id = some viewedId := by
        simpa [relevantEvent] using h
      simp [step, handleMessage, hne]
    | connected a => simp [relevantEvent] at h
    | stream_info a b c d => simp [relevantEvent] at h
    | error a => simp [relevantEvent] at h
    | pong => simp [relevantEvent] at h
    | recognition_update a b => simp [relevantEvent] at h
    | unknown a => simp [relevantEvent] at h
  | frameLoaded => simp [relevantEvent] at h

/-- Running the viewer over a sequence of events is the same as running it
over the subsequence of events concerning the viewed camera. -/
theorem run_filter_relevant (viewedId : Nat) (es : List ViewerEvent)
    (s : ViewerState) :
    run viewedId s es = run viewedId s (es.filter (relevantEvent viewedId)) := by
  induction es generalizing s with
  | nil => rfl
  | cons e tl ih =>
    by_cases h : relevantEvent viewedId e = true
    · rw [run, List.foldl_cons, List.filter_cons, if_pos h, run, List.foldl_cons]
      exact ih (step viewedId s e)
    · have h0 : relevantEvent viewedId e = false := by
        cases hre : relevantEvent viewedId e
        · rfl
        · exact absurd hre h
      rw [run, List.foldl_cons, step_irrelevant viewedId s e h0,
        List.filter_cons, if_neg (by simp [h0])]
      exact ih s

/-- Claim C8: cross-camera noninterference — a frame message whose
`camera_id` is missing or differs from the viewed camera's id leaves the
viewer state (queue, display, everything) unchanged, and any two event
sequences that agree outside frames for other cameras produce identical
frame queues and displayed frames. -/
theorem cross_camera_noninterference (viewedId : Nat) :
    (∀ (s : ViewerState) (f : Frame), f.camera_id ≠ some viewedId →
      step viewedId s (ViewerEvent.msg (ServerMsg.frame f)) = s) ∧
    (∀ (s : ViewerState) (es1 es2 : List ViewerEvent),
      es1.filter (relevantEvent viewedId) = es2.filter (relevantEvent viewedId) →
      (run viewedId s es1).frameQueue = (run viewedId s es2).frameQueue ∧
      (run viewedId s es1).displayed = (run viewedId s es2).displayed) := by
  constructor
  · intro s f hne
    simp [step, handleMessage, hne]
  · intro s es1 es2 hf
    have hrun : run viewedId s es1 = run viewedId s es2 := by
      rw [run_filter_relevant viewedId es1 s, run_filter_relevant viewedId es2 s, hf]
    exact ⟨by rw [hrun], by rw [hrun]⟩

/-- A concrete frame belonging to a different camera. -/
def otherFrame : Frame :=
  { camera_id := some 2, frame_id := 9, data := "y", width := none, height := none }

/-- Witness for C8: camera-2 frames do not affect a viewer of camera 1. -/
theorem cross_camera_noninterference_w :
    otherFrame.camera_id ≠ some 1 ∧
    step 1 initViewer (ViewerEvent.msg (ServerMsg.frame otherFrame)) = initViewer ∧
    ([ViewerEvent.msg (ServerMsg.frame otherFrame),
      ViewerEvent.msg (ServerMsg.frame (mkFrame 0))].filter (relevantEvent 1)
      = [ViewerEvent.msg (ServerMsg.frame (mkFrame 0))].filter (relevantEvent 1)) ∧
    (run 1 initViewer [ViewerEvent.msg (ServerMsg.frame otherFrame),
        ViewerEvent.msg (ServerMsg.frame (mkFrame 0))]).frameQueue
      = (run 1 initViewer [ViewerEvent.msg (ServerMsg.frame (mkFrame 0))]).frameQueue := by
  have h1 := (cross_camera_noninterference 1).1 initViewer otherFrame (by decide)
  have h2 := (cross_camera_noninterference 1).2 initViewer
    [ViewerEvent.msg (ServerMsg.frame otherFrame),
     ViewerEvent.msg (ServerMsg.frame (mkFrame 0))]
    [ViewerEvent.msg (ServerMsg.frame (mkFrame 0))] (by decide)
  exact ⟨by decide, h1, by decide, h2.1⟩

/-- Claim C9: a frame lacking width or height is treated as 320×240 by
both consumers of frame dimensions — canvas sizing, whose display height
is `round(640 * frameHeight / frameWidth)` at the fixed display width 640
(so 480 for the defaults), and the detection overlay, which falls back to
320×240 when the latest queued frame carries no dimensions (and when the
queue is empty). -/
theorem default_frame_dimensions (f : Frame)
    (h1 : f.width = none) (h2 : f.height = none) :
    frameDims f = (320, 240) ∧
    displayHeightFor f = round ((640 : ℚ) * ((240 : ℚ) / (320 : ℚ))) ∧
    displayHeightFor f = 480 ∧
    (∀ cw ch : ℤ, 10 < |cw - 640| ∨ 10 < |ch - 480| →
      resizeCanvas cw ch f = (640, 480)) ∧
    (∀ q : List Frame, q.getLast? = some f → overlayFrameDims q = (320, 240)) ∧
    overlayFrameDims ([] : List Frame) = (320, 240) ∧
    (∀ g : Frame, g.width = none → (frameDims g).1 = 320) ∧
    (∀ g : Frame, g.height = none → (frameDims g).2 = 240) := by
  have hd : frameDims f = (320, 240) := by
    simp [frameDims, h1, h2, jsOrNat]
  have hh : displayHeightFor f = 480 := by
    rw [displayHeightFor, hd]
    norm_num
  refine ⟨hd, ?_, hh, ?_, ?_, rfl, ?_, ?_⟩
  · rw [displayHeightFor, hd]
    norm_num
  · intro cw ch hcc
    simp only [resizeCanvas, hh]
    rw [if_pos hcc]
  · intro q hq
    simp [overlayFrameDims, hq, hd]
  · intro g hg
    simp [frameDims, hg, jsOrNat]
  · intro g hg
    simp [frameDims, hg, jsOrNat]

/-- Witness for C9 at a concrete dimensionless frame. -/
theorem default_frame_dimensions_w :
    (mkFrame 0).width = none ∧ (mkFrame 0).height = none ∧
    frameDims (mkFrame 0) = (320, 240) ∧
    displayHeightFor (mkFrame 0) = 480 ∧
    resizeCanvas 0 0 (mkFrame 0) = (640, 480) ∧
    overlayFrameDims [mkFrame 0] = (320, 240) := by
  have h := default_frame_dimensions (mkFrame 0) rfl rfl
  exact ⟨rfl, rfl, h.1, h.2.2.1, h.2.2.2.1 0 0 (by decide),
    h.2.2.2.2.1 [mkFrame 0] rfl⟩

/-- Claim C10: for a face bounding region `[top, right, bottom, left]`
inside the frame, the scaled and centered rectangle drawn by
`drawDetections` lies entirely within the display canvas
`[0, displayW] × [0, displayH]`. -/
theorem detection_overlay_in_bounds
    (dW dH fW fH top right bottom left : ℚ)
    (hdW : 0 ≤ dW) (hdH : 0 ≤ dH) (hfW : 0 < fW) (hfH : 0 < fH)
    (hl0 : 0 ≤ left) (hlr : left ≤ right) (hrW : right ≤ fW)
    (ht0 : 0 ≤ top) (htb : top ≤ bottom) (hbH : bottom ≤ fH) :
    0 ≤ (detectionRect dW dH fW fH top right bottom left).x ∧
    (detectionRect dW dH fW fH top right bottom left).x
      + (detectionRect dW dH fW fH top right bottom left).w ≤ dW ∧
    0 ≤ (detectionRect dW dH fW fH top right bottom left).y ∧
    (detectionRect dW dH fW fH top right bottom left).y
      + (detectionRect dW dH fW fH top right bottom left).h ≤ dH ∧
    0 ≤ (detectionRect dW dH fW fH top right bottom left).w ∧
    0 ≤ (detectionRect dW dH fW fH top right bottom left).h := by
  have hs0 : (0 : ℚ) ≤ min (dW / fW) (dH / fH) :=
    le_min (div_nonneg hdW hfW.le) (div_nonneg hdH hfH.le)
  have hfs : fW * min (dW / fW) (dH / fH) ≤ dW := by
    calc fW * min (dW / fW) (dH / fH) ≤ fW * (dW / fW) :=
          mul_le_mul_of_nonneg_left (min_le_left _ _) hfW.le
      _ = dW := by field_simp
  have hhs : fH * min (dW / fW) (dH / fH) ≤ dH := by
    calc fH * min (dW / fW) (dH / fH) ≤ fH * (dH / fH) :=
          mul_le_mul_of_nonneg_left (min_le_right _ _) hfH.le
      _ = dH := by field_simp
  have hls : 0 ≤ left * min (dW / fW) (dH / fH) := mul_nonneg hl0 hs0
  have hrs : right * min (dW / fW) (dH / fH) ≤ fW * min (dW / fW) (dH / fH) :=
    mul_le_mul_of_nonneg_right hrW hs0
  have hlrs : left * min (dW / fW) (dH / fH) ≤ right * min (dW / fW) (dH / fH) :=
    mul_le_mul_of_nonneg_right hlr hs0
  have hts : 0 ≤ top * min (dW / fW) (dH / fH) := mul_nonneg ht0 hs0
  have hbs : bottom * min (dW / fW) (dH / fH) ≤ fH * min (dW / fW) (dH / fH) :=
    mul_le_mul_of_nonneg_right hbH hs0
  have htbs : top * min (dW / fW) (dH / fH) ≤ bottom * min (dW / fW) (dH / fH) :=
    mul_le_mul_of_nonneg_right htb hs0
  simp only [detectionRect]
  refine ⟨?_, ?_, ?_, ?_, ?_, ?_⟩
  · nlinarith [hfs, hls]
  · nlinarith [hfs, hrs, hlrs]
  · nlinarith [hhs, hts]
  · nlinarith [hhs, hbs, htbs]
  · nlinarith [hlrs]
  · nlinarith [htbs]

/-- Witness for C10: the box `[10, 50, 60, 20]` in a 320×240 frame stays
inside a 640×480 canvas. -/
theorem detection_overlay_in_bounds_w :
    (0 : ℚ) ≤ 640 ∧ (0 : ℚ) < 320 ∧
    0 ≤ (detectionRect 640 480 320 240 10 50 60 20).x ∧
    (detectionRect 640 480 320 240 10 50 60 20).x
      + (detectionRect 640 480 320 240 10 50 60 20).w ≤ 640 ∧
    0 ≤ (detectionRect 640 480 320 240 10 50 60 20).y ∧
    (detectionRect 640 480 320 240 10 50 60 20).y
      + (detectionRect 640 480 320 240 10 50 60 20).h ≤ 480 := by
  have h := detection_overlay_in_bounds 640 480 320 240 10 50 60 20
    (by norm_num) (by norm_num) (by norm_num) (by norm_num) (by norm_num)
    (by norm_num) (by norm_num) (by norm_num) (by norm_num) (by norm_num)
  exact ⟨by norm_num, by norm_num, h.1, h.2.1, h.2.2.1, h.2.2.2.1⟩

end VIPReception
